import Mathlib

/-
Verification of the instrument-data-pipeline simulators.

This file shallowly embeds the numeric core of the repository:
  * src/etl/simulations/daq_sim.py        (DAQSimulator)
  * src/etl/simulations/ethernet_sim.py   (EthernetSimulator)
  * src/etl/simulations/hipot_simulation.py
  * src/etl/simulations/isolation_simulation.py
  * src/etl/simulations/parametric_simulation.py

Modelling conventions:
  * Python/numpy floats are modelled as exact rationals where only field
    arithmetic occurs; where IEEE special values matter (division by a zero
    standard deviation, pandas NaN results) values live in `RVal`, reals
    extended with +inf, -inf and NaN, with exact (unrounded) arithmetic.
  * Randomness is passed in explicitly: every stream of draws the Python code
    takes from the global generators becomes a function argument, so theorems
    quantify over all possible draws.
  * Wall-clock aspects (sleep, datetime.now) are abstracted: timestamps are
    modelled as sample indices, delays are dropped.
  * Fallible calls return `Except`; file writes are modelled as an explicit
    effect trace (`FileKind` lists) mirroring the call graph.
-/

/-- Python `int()` applied to a float: truncation toward zero. -/
def pyInt (q : ℚ) : ℤ :=
  if 0 ≤ q then ⌊q⌋ else -⌊-q⌋

/-- IEEE-754-style value: a finite real (exact, no rounding), +inf, -inf or NaN.
Used to model numpy/pandas float results where special values matter. -/
inductive RVal : Type where
  | fin : ℝ → RVal
  | pinf : RVal
  | ninf : RVal
  | nan : RVal

namespace RVal

/-- IEEE addition on extended values (exact on finite operands). -/
def add : RVal → RVal → RVal
  | nan, _ => nan
  | _, nan => nan
  | pinf, ninf => nan
  | ninf, pinf => nan
  | pinf, _ => pinf
  | _, pinf => pinf
  | ninf, _ => ninf
  | _, ninf => ninf
  | fin a, fin b => fin (a + b)

/-- IEEE subtraction on extended values (exact on finite operands). -/
def sub : RVal → RVal → RVal
  | nan, _ => nan
  | _, nan => nan
  | pinf, pinf => nan
  | ninf, ninf => nan
  | pinf, _ => pinf
  | _, pinf => ninf
  | ninf, _ => ninf
  | _, ninf => pinf
  | fin a, fin b => fin (a - b)

/-- IEEE multiplication on extended values (exact on finite operands). -/
noncomputable def mul : RVal → RVal → RVal
  | nan, _ => nan
  | _, nan => nan
  | fin a, fin b => fin (a * b)
  | pinf, pinf => pinf
  | pinf, ninf => ninf
  | ninf, pinf => ninf
  | ninf, ninf => pinf
  | pinf, fin b => if 0 < b then pinf else if b < 0 then ninf else nan
  | fin a, pinf => if 0 < a then pinf else if a < 0 then ninf else nan
  | ninf, fin b => if 0 < b then ninf else if b < 0 then pinf else nan
  | fin a, ninf => if 0 < a then ninf else if a < 0 then pinf else nan

/-- IEEE division on extended values.  Division of a nonzero finite value by
(positive) zero gives a signed infinity, `0/0` gives NaN: this is numpy
float64 behaviour (numpy emits a warning but returns inf/NaN). -/
noncomputable def div : RVal → RVal → RVal
  | nan, _ => nan
  | _, nan => nan
  | fin a, fin b =>
      if b = 0 then (if 0 < a then pinf else if a < 0 then ninf else nan)
      else fin (a / b)
  | fin _, pinf => fin 0
  | fin _, ninf => fin 0
  | pinf, fin b => if 0 ≤ b then pinf else ninf
  | ninf, fin b => if 0 ≤ b then ninf else pinf
  | pinf, _ => nan
  | ninf, _ => nan

/-- IEEE `<=`: any comparison involving NaN is false. -/
def le : RVal → RVal → Prop
  | nan, _ => False
  | _, nan => False
  | _, pinf => True
  | ninf, _ => True
  | pinf, _ => False
  | fin a, fin b => a ≤ b
  | fin _, ninf => False

/-- IEEE `<`: any comparison involving NaN is false. -/
def lt : RVal → RVal → Prop
  | nan, _ => False
  | _, nan => False
  | ninf, ninf => False
  | ninf, _ => True
  | _, ninf => False
  | pinf, _ => False
  | _, pinf => True
  | fin a, fin b => a < b

open Classical in
/-- Python builtin `min(a, b)`: returns `b` when `b < a`, else `a`. -/
noncomputable def pymin (a b : RVal) : RVal :=
  if lt b a then b else a

end RVal

/-- Arithmetic mean of a list of rationals (`sum/len`; 0-length guarded by
callers). -/
def meanQ (xs : List ℚ) : ℚ := xs.sum / xs.length

/-- Sample variance with the pandas default N-1 denominator (callers guard
lengths below 2). -/
def varQ (xs : List ℚ) : ℚ :=
  (xs.map (fun x => (x - meanQ xs) ^ 2)).sum / ((xs.length : ℚ) - 1)

/-- Embedding of `pandas.Series.mean()`: NaN on an empty series, otherwise the
arithmetic mean. -/
def pdMean (xs : List ℚ) : RVal :=
  if xs.length = 0 then .nan else .fin (meanQ xs)

/-- Embedding of `pandas.Series.std()` (ddof=1): NaN when fewer than two
samples, otherwise the square root of the N-1 sample variance. -/
noncomputable def pdStd (xs : List ℚ) : RVal :=
  if xs.length < 2 then .nan else .fin (Real.sqrt (varQ xs))

/-- Embedding of `pandas.Series.min()`: NaN on an empty series. -/
def pdMin (xs : List ℚ) : RVal :=
  match xs with
  | [] => .nan
  | x :: rest => .fin ((rest.foldl min x : ℚ) : ℝ)

/-- Embedding of `pandas.Series.max()`: NaN on an empty series. -/
def pdMax (xs : List ℚ) : RVal :=
  match xs with
  | [] => .nan
  | x :: rest => .fin ((rest.foldl max x : ℚ) : ℝ)

/-- SPC control limits for one parameter. -/
structure ControlLimits where
  center : RVal
  ucl : RVal
  lcl : RVal

/-- Embedding of the X-bar control-limit computation of
`HiPotSimulator._plot_spc_charts` (hipot_simulation.py lines 106-110, same
formula in isolation_simulation.py lines 129-137):
mean, mean + 3*std, mean - 3*std over the parameter series. -/
noncomputable def spc_control_limits (xs : List ℚ) : ControlLimits :=
  { center := pdMean xs
    ucl := (pdMean xs).add ((RVal.fin 3).mul (pdStd xs))
    lcl := (pdMean xs).sub ((RVal.fin 3).mul (pdStd xs)) }

/-- Embedding of `voltage_cp` in `HiPotSimulator._save_statistics`
(hipot_simulation.py line 37): `min(5.5 - mean, mean - 4.5) / (3 * std)`. -/
noncomputable def hipot_voltage_cp (voltage : List ℚ) : RVal :=
  (RVal.pymin ((RVal.fin 5.5).sub (pdMean voltage))
      ((pdMean voltage).sub (RVal.fin 4.5))).div
    ((RVal.fin 3).mul (pdStd voltage))

/-- Embedding of `voltage_cpk` in `HiPotSimulator._save_statistics`
(hipot_simulation.py line 38):
`min((5.5 - mean) / (3*std), (mean - 4.5) / (3*std))`. -/
noncomputable def hipot_voltage_cpk (voltage : List ℚ) : RVal :=
  RVal.pymin
    (((RVal.fin 5.5).sub (pdMean voltage)).div ((RVal.fin 3).mul (pdStd voltage)))
    (((pdMean voltage).sub (RVal.fin 4.5)).div ((RVal.fin 3).mul (pdStd voltage)))

/-- Embedding of `current_cp` in `HiPotSimulator._save_statistics`
(hipot_simulation.py line 43): `(1.0 - mean) / (3 * std)` - upper limit only. -/
noncomputable def hipot_current_cp (current : List ℚ) : RVal :=
  ((RVal.fin 1).sub (pdMean current)).div ((RVal.fin 3).mul (pdStd current))

/-- Embedding of `current_cpk` in `HiPotSimulator._save_statistics`
(hipot_simulation.py line 44): defined as `current_cp`. -/
noncomputable def hipot_current_cpk (current : List ℚ) : RVal :=
  hipot_current_cp current

/-- One row of the isolation-test SampleTable (isolation_simulation.py lines
41-51): an acquisition timestamp (abstracted to an index), the resistance in
megaohm, and the 0/1 pass flag. -/
structure IsoRow where
  timestamp : ℕ
  resistance : ℚ
  pass_fail : ℚ

/-- Descriptive statistics block of the isolation analysis result. -/
structure ResistanceStats where
  mean : RVal
  std : RVal
  min : RVal
  max : RVal

/-- Numeric part of the isolation analysis result (`results` dict of
`IsolationSimulator.analyze_test_data`, minus the wall-clock timestamp). -/
structure IsoResults where
  pass_rate : RVal
  resistance_stats : ResistanceStats

/-- Embedding of the numeric computation of
`IsolationSimulator.analyze_test_data` (isolation_simulation.py lines 72-88):
pass rate and resistance mean/std/min/max via pandas reductions. -/
noncomputable def isolation_analyze (data : List IsoRow) : IsoResults :=
  { pass_rate := pdMean (data.map IsoRow.pass_fail)
    resistance_stats :=
      { mean := pdMean (data.map IsoRow.resistance)
        std := pdStd (data.map IsoRow.resistance)
        min := pdMin (data.map IsoRow.resistance)
        max := pdMax (data.map IsoRow.resistance) } }

/-- Kind of file written by the reporting helpers. -/
inductive FileKind : Type where
  | png : FileKind
  | json : FileKind
  | csv : FileKind
deriving DecidableEq

/-- File writes performed by `IsolationSimulator._save_plot`
(isolation_simulation.py lines 162-168): one `fig.savefig` call. -/
def save_plot_effects : List FileKind := [.png]

/-- File writes performed by `IsolationSimulator._plot_results`
(isolation_simulation.py lines 101-121): one `_save_plot` call. -/
def plot_results_effects : List FileKind := save_plot_effects

/-- File writes performed by `IsolationSimulator._plot_spc_charts`
(isolation_simulation.py lines 123-160): one `_save_plot` call. -/
def plot_spc_charts_effects : List FileKind := save_plot_effects

/-- File writes performed by `IsolationSimulator._save_statistics`
(isolation_simulation.py lines 170-185): a `json.dump` to a .json file then a
`DataFrame.to_csv`. -/
def save_statistics_effects : List FileKind := [.json, .csv]

/-- File writes performed by one `IsolationSimulator.analyze_test_data` call
(isolation_simulation.py lines 90-93): `_plot_results`, `_plot_spc_charts`,
then `_save_statistics`, in order. -/
def analyze_test_data_effects : List FileKind :=
  plot_results_effects ++ plot_spc_charts_effects ++ save_statistics_effects

/-- Embedding of `IsolationSimulator.analyze_test_data` as a value-and-effects
pair: the returned numeric results together with the trace of file writes the
call performs. -/
noncomputable def analyze_test_data (data : List IsoRow) :
    IsoResults × List FileKind :=
  (isolation_analyze data, analyze_test_data_effects)

/-- Embedding of `numpy.linspace(a, b, n)`: `n` evenly spaced points from `a`
to `b` inclusive; a singleton `[a]` when `n = 1`, empty when `n = 0`. -/
noncomputable def linspace (a b : ℝ) (n : ℕ) : List ℝ :=
  if n = 1 then [a]
  else (List.range n).map (fun i : ℕ => a + (i : ℝ) * (b - a) / ((n : ℝ) - 1))

/-- Streams of pseudo-random draws consumed by `DAQSimulator`, passed
explicitly (channel index, then sample index, to a value).  `analog_noise`
models `np.random.normal(0, 0.1, n)`, `digital_bit` models
`random.randint(0, 1)`, `eth_base` models `np.random.normal(0, 1, n)`,
`eth_loss` models `np.random.random(n)` and `eth_latency` the first entry of
`np.random.normal(0.02, 0.005, n)` for each channel. -/
structure DaqRng where
  analog_noise : ℕ → ℕ → ℚ
  digital_bit : ℕ → ℕ → ℤ
  eth_base : ℕ → ℕ → ℚ
  eth_loss : ℕ → ℕ → ℚ
  eth_latency : ℕ → ℚ

/-- Embedding of `DAQSimulator._simulate_analog_data` (daq_sim.py lines
57-77): per channel, `sin(linspace(0, 2*pi, n)) * 5 + noise +
linspace(0, 0.5, n)`. -/
noncomputable def simulate_analog_data (rng : DaqRng) (num_samples num_channels : ℕ) :
    List (List ℝ) :=
  (List.range num_channels).map (fun c =>
    (List.range num_samples).map (fun i =>
      Real.sin ((linspace 0 (2 * Real.pi) num_samples).getD i 0) * 5
        + (rng.analog_noise c i : ℝ)
        + (linspace 0 (1 / 2) num_samples).getD i 0))

/-- One iteration of the debouncing loop in
`DAQSimulator._simulate_digital_data` (daq_sim.py lines 89-94): when the state
at `i` differs from the state at `i-1`, force the next four in-bounds entries
to the state at `i` (`List.set` is a no-op out of bounds, matching the
`if i+j < len(states)` guard). -/
def bounce_step (a : List ℤ) (i : ℕ) : List ℤ :=
  if a.getD i 0 ≠ a.getD (i - 1) 0 then
    ((((a.set (i + 1) (a.getD i 0)).set (i + 2) (a.getD i 0)).set
        (i + 3) (a.getD i 0)).set (i + 4) (a.getD i 0))
  else a

/-- The debouncing loop after its first `m` iterations: indices `1..m`
processed left to right, mutating in place like the Python loop. -/
def debounce_from (a : List ℤ) : ℕ → List ℤ
  | 0 => a
  | m + 1 => bounce_step (debounce_from a m) (m + 1)

/-- The full debouncing pass of `DAQSimulator._simulate_digital_data`
(daq_sim.py lines 88-94): `for i in range(1, len(states))` applied once,
left to right. -/
def debounce (a : List ℤ) : List ℤ :=
  debounce_from a (a.length - 1)

/-- Embedding of `DAQSimulator._simulate_digital_data` (daq_sim.py lines
79-98): per channel, draw a random 0/1 state per sample, then debounce. -/
def simulate_digital_data (rng : DaqRng) (num_samples num_channels : ℕ) :
    List (List ℤ) :=
  (List.range num_channels).map (fun c =>
    debounce ((List.range num_samples).map (rng.digital_bit c)))

/-- Embedding of `np.roll(l, k)`: element `i` of the input moves to index
`(i + k) mod n`, i.e. a left rotation by `(-k) mod n`. -/
def rollList {α : Type} (l : List α) (k : ℤ) : List α :=
  if l.length = 0 then l
  else l.rotateLeft (((-k) % (l.length : ℤ)).toNat)

/-- Embedding of `DAQSimulator._simulate_ethernet_data` (daq_sim.py lines
100-119): per channel, normal base draws, each sample replaced by NaN
(modelled `none`) when its uniform draw is below the hard-coded 5% loss rate,
then rolled by `int(latency[0] * 1000)`. -/
def simulate_ethernet_data (rng : DaqRng) (num_samples num_channels : ℕ) :
    List (List (Option ℚ)) :=
  (List.range num_channels).map (fun c =>
    rollList
      ((List.range num_samples).map (fun i =>
        if rng.eth_loss c i < 1 / 20 then none else some (rng.eth_base c i)))
      (pyInt (rng.eth_latency c * 1000)))

/-- Channel data produced by `DAQSimulator.simulate_daq_data`, tagged by the
source type (the Python dict holds float, int, or float-with-NaN lists). -/
inductive DaqData : Type where
  | analog : List (List ℝ) → DaqData
  | digital : List (List ℤ) → DaqData
  | ethernet : List (List (Option ℚ)) → DaqData

/-- Result dict of `DAQSimulator.simulate_daq_data`: timestamps (abstracted to
sample indices) plus per-channel data. -/
structure DaqOut where
  timestamps : List ℕ
  data : DaqData

/-- Failure modes of the DAQ simulator: the `ValueError` raised for an
unrecognized source type (daq_sim.py line 37) and the `ConnectionError` raised
by `read_data` when not connected (daq_sim.py line 146). -/
inductive DaqError : Type where
  | unsupported_modality : String → DaqError
  | not_connected : DaqError
deriving DecidableEq

/-- Per-source-type channel lengths of a DAQ read result (empty on error). -/
def DaqData.channel_lengths : DaqData → List ℕ
  | .analog d => d.map List.length
  | .digital d => d.map List.length
  | .ethernet d => d.map List.length

/-- Channel lengths of a fallible DAQ read (empty list on error). -/
def daq_channel_lengths : Except DaqError DaqOut → List ℕ
  | .error _ => []
  | .ok o => o.data.channel_lengths

/-- Embedding of `DAQSimulator.simulate_daq_data` (daq_sim.py lines 21-55):
validates the source type, computes `num_samples = int(duration * 1000)` from
the instance-wide 1000 Hz sampling rate (used for all three source types),
then dispatches. -/
noncomputable def simulate_daq_data (rng : DaqRng) (source_type : String)
    (duration : ℚ) (num_channels : ℕ) : Except DaqError DaqOut :=
  if source_type ∉ (["analog", "digital", "ethernet"] : List String) then
    .error (.unsupported_modality source_type)
  else
    let num_samples := (pyInt (duration * 1000)).toNat
    if source_type = "analog" then
      .ok ⟨List.range num_samples,
        .analog (simulate_analog_data rng num_samples num_channels)⟩
    else if source_type = "digital" then
      .ok ⟨List.range num_samples,
        .digital (simulate_digital_data rng num_samples num_channels)⟩
    else
      .ok ⟨List.range num_samples,
        .ethernet (simulate_ethernet_data rng num_samples num_channels)⟩

/-- State of a `DAQSimulator` instance (daq_sim.py lines 16-19). -/
structure DAQSimulator where
  sampling_rate : ℕ
  buffer_size : ℕ
  connected : Bool

/-- A freshly constructed `DAQSimulator`: 1000 Hz, 1024 buffer, disconnected. -/
def DAQSimulator.init : DAQSimulator := ⟨1000, 1024, false⟩

/-- Embedding of `DAQSimulator.connect` (daq_sim.py lines 121-131): for any
source-type string it sleeps, sets `connected = True` and returns `True`; the
source type is never validated here. -/
def DAQSimulator.connect (s : DAQSimulator) (_source_type : String) :
    Bool × DAQSimulator :=
  (true, ⟨s.sampling_rate, s.buffer_size, true⟩)

/-- Embedding of `DAQSimulator.disconnect` (daq_sim.py lines 133-138). -/
def DAQSimulator.disconnect (s : DAQSimulator) : DAQSimulator :=
  ⟨s.sampling_rate, s.buffer_size, false⟩

/-- Embedding of `DAQSimulator.read_data` (daq_sim.py lines 140-148): raises
`ConnectionError` when not connected, otherwise defers entirely to
`simulate_daq_data`. -/
noncomputable def DAQSimulator.read_data (s : DAQSimulator) (rng : DaqRng)
    (source_type : String) (duration : ℚ) (num_channels : ℕ) :
    Except DaqError DaqOut :=
  if s.connected = false then .error .not_connected
  else simulate_daq_data rng source_type duration num_channels

/-- State of an `EthernetSimulator` instance (ethernet_sim.py lines 15-28). -/
structure EthernetSimulator where
  connected : Bool
  packet_loss_rate : ℚ
  latency : ℚ

/-- A freshly constructed `EthernetSimulator` (ethernet_sim.py lines 23-28):
disconnected, 1% packet loss, 50 ms latency. -/
def EthernetSimulator.init : EthernetSimulator :=
  ⟨false, 1 / 100, 1 / 20⟩

/-- Random draws consumed by `EthernetSimulator.read_data`: per channel and
sample, the `normal(0.5, 0.1)` base draw, the `normal(0, 0.01)` noise draw and
the uniform `np.random.random` packet-loss draw. -/
structure EthRng where
  base : ℕ → ℕ → ℚ
  noise : ℕ → ℕ → ℚ
  loss : ℕ → ℕ → ℚ

/-- Failure mode of `EthernetSimulator.read_data`: the `ConnectionError`
raised when not connected (ethernet_sim.py line 72). -/
inductive EthError : Type where
  | not_connected : EthError
deriving DecidableEq

/-- Result dict of `EthernetSimulator.read_data`: timestamps (abstracted to
sample indices) plus per-channel samples, `none` marking a lost packet. -/
structure EthData where
  timestamps : List ℕ
  data : List (List (Option ℝ))

/-- Embedding of `EthernetSimulator.read_data` (ethernet_sim.py lines 60-110):
requires a connection, computes `num_samples = int(duration * 10)` from the
10 Hz networked-instrument rate, and per channel emits
`base + 0.05*sin(2*pi*0.1*t) + noise` with `t = linspace(0, duration, n)`,
replacing a sample by NaN (modelled `none`) unless its uniform draw exceeds
`packet_loss_rate`. -/
noncomputable def EthernetSimulator.read_data (sim : EthernetSimulator)
    (rng : EthRng) (duration : ℚ) (num_channels : ℕ) :
    Except EthError EthData :=
  if sim.connected = false then .error .not_connected
  else
    let num_samples := (pyInt (duration * 10)).toNat
    .ok { timestamps := List.range num_samples
          data := (List.range num_channels).map (fun c =>
            (List.range num_samples).map (fun i =>
              if rng.loss c i > sim.packet_loss_rate then
                some ((rng.base c i : ℝ)
                  + 0.05 * Real.sin (2 * Real.pi * 0.1
                      * (linspace 0 (duration : ℝ) num_samples).getD i 0)
                  + (rng.noise c i : ℝ))
              else none)) }

/-- Embedding of the isolation test-profile mapping
(isolation_simulation.py line 45): `resistance = abs(raw) * 1e6` megaohm. -/
def isolation_resistance (raw : ℚ) : ℚ := |raw| * 1000000

/-- Embedding of the isolation pass predicate (isolation_simulation.py line
51): pass iff `resistance >= 100` megaohm. -/
def isolation_pass (raw : ℚ) : Bool := decide (100 ≤ isolation_resistance raw)

/-- Embedding of the parametric voltage mapping (parametric_simulation.py line
71): `voltage = abs(raw) * 1000` millivolt. -/
def parametric_voltage (raw : ℚ) : ℚ := |raw| * 1000

/-- Embedding of the parametric current mapping (parametric_simulation.py line
72): `current = abs(raw) * 1000` milliamp. -/
def parametric_current (raw : ℚ) : ℚ := |raw| * 1000

/-- Tail of the moving-range series: given the previous sample, each output
entry is `max(prev, x) - min(prev, x)` over the 2-sample window, mirroring the
`rolling(window=2).apply(lambda x: x.max() - x.min())` kernel. -/
def rolling_range2_aux (prev : ℚ) : List ℚ → List (Option ℚ)
  | [] => []
  | y :: t => some (max prev y - min prev y) :: rolling_range2_aux y t

/-- Embedding of the moving-range series
`series.rolling(window=2).apply(lambda x: x.max() - x.min())`
(hipot_simulation.py line 123, isolation_simulation.py line 144): a series of
the input length whose first entry is NaN (modelled `none`) because the first
sample has no 2-sample window. -/
def rolling_range2 : List ℚ → List (Option ℚ)
  | [] => []
  | x :: rest => none :: rolling_range2_aux x rest

/-- A fixed deterministic draw assignment used to instantiate theorems on
concrete inputs: digital draws `0,1,1,1,...` per channel, ethernet loss draws
constantly 1 (no packet ever lost), latency draws constantly 0.02. -/
def rng0 : DaqRng :=
  { analog_noise := fun _ _ => 0
    digital_bit := fun _ i => if i = 0 then 0 else 1
    eth_base := fun _ _ => 0
    eth_loss := fun _ _ => 1
    eth_latency := fun _ => 1 / 50 }

/-- A fixed deterministic draw assignment for the networked instrument:
base draws 1/2, zero noise, loss draws constantly 1 (no packet lost). -/
def ethRng0 : EthRng :=
  { base := fun _ _ => 1 / 2
    noise := fun _ _ => 0
    loss := fun _ _ => 1 }

/-- The debounce window property up to index `m`: whenever the stored state
changes at an index `i ≤ m`, the following four in-bounds entries equal the
state at `i`. -/
def DebounceInv (a : List ℤ) (m : ℕ) : Prop :=
  ∀ i, 1 ≤ i → i ≤ m → i < a.length →
    a.getD i 0 ≠ a.getD (i - 1) 0 →
    ∀ j, 1 ≤ j → j ≤ 4 → i + j < a.length →
      a.getD (i + j) 0 = a.getD i 0

/- ------------------------------------------------------------------ -/
/- Helper lemmas                                                      -/
/- ------------------------------------------------------------------ -/

theorem getD_map_range {α : Type} (f : ℕ → α) (d : α) {i n : ℕ} (h : i < n) :
    ((List.range n).map f).getD i d = f i := by
  rw [List.getD_eq_getElem?_getD, List.getElem?_map, List.getElem?_range h]
  rfl

theorem rotateLeft_length {α : Type} (l : List α) (n : ℕ) :
    (l.rotateLeft n).length = l.length := by
  simp only [List.rotateLeft]
  split
  · rfl
  · simp only [List.length_append, List.length_drop, List.length_take]
    omega

theorem rollList_length {α : Type} (l : List α) (k : ℤ) :
    (rollList l k).length = l.length := by
  unfold rollList
  split
  · rfl
  · exact rotateLeft_length l _

/- ------------------------------------------------------------------ -/
/- Claim C5                                                           -/
/- ------------------------------------------------------------------ -/

/-- Claim C5: the isolation profile maps a raw sample to
`resistance = abs(raw) * 1e6` megaohm, which is sign-symmetric and
non-negative, with pass iff `resistance >= 100`; raw `-0.0002` maps to
`200.0` megaohm and passes; the parametric voltage mapping
`abs(raw) * 1000` is likewise sign-symmetric and non-negative. -/
theorem abs_before_scaling_mappings :
    (∀ x : ℚ, isolation_resistance (-x) = isolation_resistance x ∧
      0 ≤ isolation_resistance x) ∧
    (∀ x : ℚ, isolation_pass x = true ↔ 100 ≤ isolation_resistance x) ∧
    isolation_resistance (-(1 / 5000)) = 200 ∧
    isolation_pass (-(1 / 5000)) = true ∧
    (∀ x : ℚ, parametric_voltage (-x) = parametric_voltage x ∧
      0 ≤ parametric_voltage x) := by
  refine ⟨fun x => ⟨by simp [isolation_resistance], ?_⟩,
    fun x => by simp [isolation_pass],
    by
      unfold isolation_resistance
      rw [abs_neg, abs_of_nonneg (by norm_num : (0 : ℚ) ≤ 1 / 5000)]
      norm_num,
    by
      simp only [isolation_pass, isolation_resistance, abs_neg,
        decide_eq_true_eq]
      rw [abs_of_nonneg (by norm_num : (0 : ℚ) ≤ 1 / 5000)]
      norm_num,
    fun x => ⟨by simp [parametric_voltage], ?_⟩⟩
  · unfold isolation_resistance
    positivity
  · unfold parametric_voltage
    positivity

/- ------------------------------------------------------------------ -/
/- Claim C10                                                          -/
/- ------------------------------------------------------------------ -/

/-- Claim C10: `DAQSimulator.connect` succeeds deterministically for every
source-type string (returning `True` and setting `connected`); reading while
disconnected fails with `NotConnected` regardless of the string, and the
`UnsupportedModality` failure occurs only on a read while connected. -/
theorem connect_unvalidated_read_validated :
    ∀ (s : DAQSimulator) (src : String) (rng : DaqRng) (d : ℚ) (ch : ℕ),
      (s.connect src).1 = true ∧
      (s.connect src).2.connected = true ∧
      (s.connected = false →
        s.read_data rng src d ch = .error .not_connected) ∧
      (s.connected = true →
        src ∉ (["analog", "digital", "ethernet"] : List String) →
        s.read_data rng src d ch = .error (.unsupported_modality src)) := by
  intro s src rng d ch
  refine ⟨rfl, rfl, fun h => ?_, fun h hm => ?_⟩
  · unfold DAQSimulator.read_data
    rw [if_pos h]
  · unfold DAQSimulator.read_data
    rw [if_neg (by rw [h]; simp)]
    unfold simulate_daq_data
    rw [if_pos hm]

/-- Witness for C10 at concrete inputs: connecting a fresh simulator with the
unrecognized string "tcp" succeeds; reading "tcp" while disconnected fails
with NotConnected; reading "tcp" after connect fails with
UnsupportedModality. -/
theorem connect_unvalidated_read_validated_witness :
    (DAQSimulator.init.connect "tcp").1 = true ∧
    (DAQSimulator.init.connect "tcp").2.connected = true ∧
    DAQSimulator.init.read_data rng0 "tcp" 1 1 = .error .not_connected ∧
    ((DAQSimulator.init.connect "tcp").2).read_data rng0 "tcp" 1 1 =
      .error (.unsupported_modality "tcp") := by
  have h1 := connect_unvalidated_read_validated DAQSimulator.init "tcp" rng0 1 1
  have h2 := connect_unvalidated_read_validated
    (DAQSimulator.init.connect "tcp").2 "tcp" rng0 1 1
  exact ⟨h1.1, h1.2.1, h1.2.2.1 rfl, h2.2.2.2 rfl (by decide)⟩

/- ------------------------------------------------------------------ -/
/- Claim C9                                                           -/
/- ------------------------------------------------------------------ -/

/-- Claim C9 (code evaluation): on the empty SampleTable the isolation
analysis returns a NaN-filled result (pass rate and all four resistance
statistics are NaN); no distinct EmptyDataset condition exists in the code. -/
theorem isolation_analyze_empty_is_nan_filled :
    isolation_analyze [] =
      { pass_rate := .nan
        resistance_stats :=
          { mean := .nan, std := .nan, min := .nan, max := .nan } } := rfl

/- ------------------------------------------------------------------ -/
/- Claim C3                                                           -/
/- ------------------------------------------------------------------ -/

/-- Counterexample to C3 as stated: at a concrete one-row table,
`analyze_test_data` performs file writes (its effect trace is non-empty), so
the analysis step is not free of file I/O. -/
theorem analyze_test_data_writes_files :
    (analyze_test_data [⟨0, 200, 1⟩]).2 ≠ ([] : List FileKind) := by
  decide

/-- Claim C3 (amended): the numeric results of
`IsolationSimulator.analyze_test_data` are a deterministic function of the
resistance and pass/fail columns alone (timestamps are ignored), but every
call also writes two plot PNGs, a JSON statistics file and a CSV dump. -/
theorem analyze_test_data_deterministic_with_fixed_writes :
    ∀ t1 t2 : List IsoRow,
      t1.map IsoRow.resistance = t2.map IsoRow.resistance →
      t1.map IsoRow.pass_fail = t2.map IsoRow.pass_fail →
      (analyze_test_data t1).1 = (analyze_test_data t2).1 ∧
      (analyze_test_data t1).2 =
        [FileKind.png, FileKind.png, FileKind.json, FileKind.csv] := by
  intro t1 t2 h1 h2
  constructor
  · show isolation_analyze t1 = isolation_analyze t2
    unfold isolation_analyze
    rw [h1, h2]
  · rfl

/-- Witness for C3 (amended) at two concrete one-row tables differing only in
timestamp: equal columns, equal numeric results, and the fixed four-write
effect trace. -/
theorem analyze_test_data_deterministic_witness :
    ([⟨0, 200, 1⟩] : List IsoRow).map IsoRow.resistance =
      ([⟨7, 200, 1⟩] : List IsoRow).map IsoRow.resistance ∧
    ([⟨0, 200, 1⟩] : List IsoRow).map IsoRow.pass_fail =
      ([⟨7, 200, 1⟩] : List IsoRow).map IsoRow.pass_fail ∧
    (analyze_test_data [⟨0, 200, 1⟩]).1 = (analyze_test_data [⟨7, 200, 1⟩]).1 ∧
    (analyze_test_data [⟨0, 200, 1⟩]).2 =
      [FileKind.png, FileKind.png, FileKind.json, FileKind.csv] := by
  have h := analyze_test_data_deterministic_with_fixed_writes
    [⟨0, 200, 1⟩] [⟨7, 200, 1⟩] (by decide) (by decide)
  exact ⟨by decide, by decide, h.1, h.2⟩

/- ------------------------------------------------------------------ -/
/- Claim C2                                                           -/
/- ------------------------------------------------------------------ -/

/-- Counterexample to C2 as stated: on the non-empty single-row table `[5]`
the pandas std (N-1 denominator) is NaN, the computed control limits are NaN,
and `lcl <= center <= ucl` fails. -/
theorem control_limits_single_row_order_fails :
    ([5] : List ℚ) ≠ [] ∧
    ¬ (RVal.le (spc_control_limits [5]).lcl (spc_control_limits [5]).center ∧
       RVal.le (spc_control_limits [5]).center (spc_control_limits [5]).ucl) := by
  refine ⟨by decide, fun h => ?_⟩
  exact h.1

/-- Claim C2 (amended): for every parameter series with at least two samples,
the computed control limits satisfy `lcl <= center <= ucl`; a single-row table
instead yields NaN limits for which the ordering fails. -/
theorem control_limits_ordered_of_two_samples :
    ∀ xs : List ℚ, 2 ≤ xs.length →
      RVal.le (spc_control_limits xs).lcl (spc_control_limits xs).center ∧
      RVal.le (spc_control_limits xs).center (spc_control_limits xs).ucl := by
  intro xs h
  have h0 : ¬ (xs.length = 0) := by omega
  have h2 : ¬ (xs.length < 2) := by omega
  have hsq : (0 : ℝ) ≤ Real.sqrt (varQ xs) := Real.sqrt_nonneg _
  simp only [spc_control_limits, pdMean, pdStd, if_neg h0, if_neg h2,
    RVal.sub, RVal.add, RVal.mul, RVal.le]
  constructor <;> linarith

/-- Witness for C2 (amended) at the two-sample series `[1, 2]`. -/
theorem control_limits_ordered_witness :
    2 ≤ ([1, 2] : List ℚ).length ∧
    RVal.le (spc_control_limits [1, 2]).lcl (spc_control_limits [1, 2]).center ∧
    RVal.le (spc_control_limits [1, 2]).center (spc_control_limits [1, 2]).ucl := by
  have h := control_limits_ordered_of_two_samples [1, 2] (by decide)
  exact ⟨by decide, h.1, h.2⟩

/- ------------------------------------------------------------------ -/
/- Claim C1                                                           -/
/- ------------------------------------------------------------------ -/

/-- Claim C1 (code evaluation): on all-identical inputs (sigma = 0) the HiPot
capability computation divides by `3*std = 0` and produces +infinity for cp
and cpk - no "undefined" sentinel exists in the code. -/
theorem hipot_capability_sigma_zero_is_infinite :
    hipot_voltage_cp [5, 5, 5] = RVal.pinf ∧
    hipot_voltage_cpk [5, 5, 5] = RVal.pinf ∧
    hipot_current_cp [1 / 2, 1 / 2, 1 / 2] = RVal.pinf ∧
    hipot_current_cpk [1 / 2, 1 / 2, 1 / 2] = RVal.pinf := by
  have hm : pdMean [(5 : ℚ), 5, 5] = RVal.fin (5 : ℝ) := by
    unfold pdMean meanQ
    norm_num
  have hv : varQ [(5 : ℚ), 5, 5] = 0 := by
    unfold varQ meanQ
    norm_num
  have hs : pdStd [(5 : ℚ), 5, 5] = RVal.fin (0 : ℝ) := by
    unfold pdStd
    rw [if_neg (by norm_num), hv]
    norm_num
  have hmc : pdMean [(1 : ℚ) / 2, 1 / 2, 1 / 2] = RVal.fin ((1 : ℝ) / 2) := by
    unfold pdMean meanQ
    norm_num
  have hvc : varQ [(1 : ℚ) / 2, 1 / 2, 1 / 2] = 0 := by
    unfold varQ meanQ
    norm_num
  have hsc : pdStd [(1 : ℚ) / 2, 1 / 2, 1 / 2] = RVal.fin (0 : ℝ) := by
    unfold pdStd
    rw [if_neg (by norm_num), hvc]
    norm_num
  have hdiv : ∀ a : ℝ, 0 < a →
      RVal.div (RVal.fin a) ((RVal.fin 3).mul (RVal.fin 0)) = RVal.pinf := by
    intro a ha
    simp only [RVal.mul, RVal.div]
    norm_num [ha]
  have h3 : hipot_current_cp [1 / 2, 1 / 2, 1 / 2] = RVal.pinf := by
    unfold hipot_current_cp
    rw [hmc, hsc]
    simp only [RVal.sub]
    rw [show (1 : ℝ) - 1 / 2 = 1 / 2 by norm_num]
    exact hdiv _ (by norm_num)
  have h1 : hipot_voltage_cp [5, 5, 5] = RVal.pinf := by
    unfold hipot_voltage_cp
    rw [hm, hs]
    simp only [RVal.sub]
    rw [show (5.5 : ℝ) - 5 = 1 / 2 by norm_num,
      show (5 : ℝ) - 4.5 = 1 / 2 by norm_num]
    rw [RVal.pymin, if_neg (by simp [RVal.lt])]
    exact hdiv _ (by norm_num)
  have h2 : hipot_voltage_cpk [5, 5, 5] = RVal.pinf := by
    unfold hipot_voltage_cpk
    rw [hm, hs]
    simp only [RVal.sub]
    rw [show (5.5 : ℝ) - 5 = 1 / 2 by norm_num,
      show (5 : ℝ) - 4.5 = 1 / 2 by norm_num]
    rw [hdiv _ (by norm_num)]
    rw [RVal.pymin, if_neg (by simp [RVal.lt])]
  exact ⟨h1, h2, h3, by unfold hipot_current_cpk; exact h3⟩

/- ------------------------------------------------------------------ -/
/- Claim C8                                                           -/
/- ------------------------------------------------------------------ -/

theorem rolling_range2_aux_length (p : ℚ) (l : List ℚ) :
    (rolling_range2_aux p l).length = l.length := by
  induction l generalizing p with
  | nil => rfl
  | cons y t ih => simp [rolling_range2_aux, ih]

theorem rolling_range2_aux_filterMap (p : ℚ) (l : List ℚ) :
    ((rolling_range2_aux p l).filterMap id).length = l.length := by
  induction l generalizing p with
  | nil => rfl
  | cons y t ih => simp [rolling_range2_aux, ih]

theorem rolling_range2_aux_getD (p : ℚ) (l : List ℚ) (j : ℕ) (h : j < l.length) :
    (rolling_range2_aux p l).getD j none =
      some |l.getD j 0 - (if j = 0 then p else l.getD (j - 1) 0)| := by
  induction l generalizing p j with
  | nil => simp at h
  | cons y t ih =>
    cases j with
    | zero =>
      simp only [rolling_range2_aux, List.getD_cons_zero]
      rw [max_sub_min_eq_abs]
      simp
    | succ j =>
      simp only [rolling_range2_aux, List.getD_cons_succ]
      rw [ih y j (by simpa using h)]
      congr 1
      cases j with
      | zero => simp
      | succ j => simp

/-- Claim C8: the moving-range series of an N-sample parameter series has N
slots whose first entry is the NaN marker (the first raw sample contributes no
range, and is not a zero range), exactly N-1 defined range values, each the
magnitude of the difference between a sample and its predecessor. -/
theorem moving_range_window :
    ∀ xs : List ℚ, 0 < xs.length →
      (rolling_range2 xs).length = xs.length ∧
      ((rolling_range2 xs).filterMap id).length = xs.length - 1 ∧
      (rolling_range2 xs).head? = some none ∧
      ∀ i, 1 ≤ i → i < xs.length →
        (rolling_range2 xs).getD i none =
          some |xs.getD i 0 - xs.getD (i - 1) 0| := by
  intro xs hpos
  match xs with
  | [] => simp at hpos
  | x :: rest =>
    refine ⟨?_, ?_, rfl, ?_⟩
    · simp [rolling_range2, rolling_range2_aux_length]
    · simp [rolling_range2, rolling_range2_aux_filterMap]
    · intro i hi1 hilen
      match i, hi1 with
      | Nat.succ j, _ =>
        simp only [rolling_range2, List.getD_cons_succ]
        rw [rolling_range2_aux_getD x rest j (by simpa using hilen)]
        congr 1
        cases j with
        | zero => simp
        | succ j => simp

/-- Witness for C8 at the concrete series `[3, 1, 5]`: three slots, two
defined moving ranges, a leading NaN marker, and `|5 - 1| = 4` at index 2. -/
theorem moving_range_window_witness :
    0 < ([3, 1, 5] : List ℚ).length ∧
    ((rolling_range2 [3, 1, 5]).filterMap id).length = 2 ∧
    (rolling_range2 [3, 1, 5]).head? = some none ∧
    (rolling_range2 [3, 1, 5]).getD 2 none = some 4 := by
  have h := moving_range_window [3, 1, 5] (by decide)
  refine ⟨by decide, h.2.1, h.2.2.1, ?_⟩
  rw [h.2.2.2 2 (by norm_num) (by norm_num)]
  norm_num

/- ------------------------------------------------------------------ -/
/- Claim C6                                                           -/
/- ------------------------------------------------------------------ -/

theorem pyInt_ofNat (n : ℕ) : pyInt (n : ℚ) = n := by
  unfold pyInt
  rw [if_pos (by positivity)]
  exact_mod_cast Int.floor_natCast n

theorem simulate_ethernet_data_length (rng : DaqRng) (n ch : ℕ) :
    (simulate_ethernet_data rng n ch).length = ch := by
  simp [simulate_ethernet_data]

theorem simulate_ethernet_channel_length (rng : DaqRng) (n ch c : ℕ)
    (h : c < ch) :
    ((simulate_ethernet_data rng n ch).getD c []).length = n := by
  unfold simulate_ethernet_data
  rw [getD_map_range _ _ h, rollList_length]
  simp

/-- Counterexample to C6 as stated: a duration-1 read of the `ethernet`
source type through the connected DAQ simulator yields 1000 samples on its
single channel (the DAQ-wide 1000 Hz rate with 5% loss), not
`int(1 * 10) = 10` samples. -/
theorem daq_ethernet_read_not_ten_hz :
    daq_channel_lengths
        ((DAQSimulator.init.connect "ethernet").2.read_data rng0 "ethernet" 1 1)
      = [1000] ∧
    (pyInt ((1 : ℚ) * 10)).toNat = 10 ∧
    ([1000] : List ℕ) ≠ [10] := by
  refine ⟨?_,
    by rw [show ((1 : ℚ) * 10) = ((10 : ℕ) : ℚ) by norm_num, pyInt_ofNat]; simp,
    by decide⟩
  have hread : (DAQSimulator.init.connect "ethernet").2.read_data
      rng0 "ethernet" 1 1 = simulate_daq_data rng0 "ethernet" 1 1 := by
    unfold DAQSimulator.read_data
    rw [if_neg (by decide)]
  rw [hread]
  unfold simulate_daq_data
  rw [if_neg (by decide), if_neg (by decide), if_neg (by decide)]
  have hn : (pyInt ((1 : ℚ) * 1000)).toNat = 1000 := by
    rw [show ((1 : ℚ) * 1000) = ((1000 : ℕ) : ℚ) by norm_num, pyInt_ofNat]
    simp
  rw [hn]
  unfold daq_channel_lengths DaqData.channel_lengths
  have h0 : ((simulate_ethernet_data rng0 1000 1).getD 0 []).length = 1000 :=
    simulate_ethernet_channel_length rng0 1000 1 0 (by norm_num)
  have hl : (simulate_ethernet_data rng0 1000 1).length = 1 :=
    simulate_ethernet_data_length rng0 1000 1
  match hsed : simulate_ethernet_data rng0 1000 1, hl with
  | [col], _ =>
    rw [hsed] at h0
    simpa using h0

/-- Claim C6 (amended): for reads through the networked-instrument simulator
(`EthernetSimulator.read_data`), the number of samples per channel is
`int(duration * 10)` (10 Hz), and sample `i` of channel `c` carries the
explicit missing marker (NaN, modelled `none`, never zero) exactly when its
uniform draw is at most `packet_loss_rate`, whose constructed default is 0.01;
the DAQ simulator's own `ethernet` source type instead uses the DAQ-wide
1000 Hz sample count and a 5% loss rate. -/
theorem ethernet_read_shape :
    EthernetSimulator.init.packet_loss_rate = 1 / 100 ∧
    ∀ (sim : EthernetSimulator) (rng : EthRng) (d : ℚ) (ch : ℕ),
      sim.connected = true →
      ∃ r, sim.read_data rng d ch = .ok r ∧
        r.data.length = ch ∧
        ∀ c, c < ch →
          (r.data.getD c []).length = (pyInt (d * 10)).toNat ∧
          ∀ i, i < (pyInt (d * 10)).toNat →
            ((r.data.getD c []).getD i (some 0) = none ↔
              rng.loss c i ≤ sim.packet_loss_rate) := by
  refine ⟨rfl, ?_⟩
  intro sim rng d ch hc
  unfold EthernetSimulator.read_data
  rw [hc]
  rw [if_neg (by simp)]
  refine ⟨_, rfl, by simp, ?_⟩
  intro c hcch
  rw [getD_map_range _ _ hcch]
  refine ⟨by simp, ?_⟩
  intro i hi
  rw [getD_map_range _ _ hi]
  by_cases hl : rng.loss c i > sim.packet_loss_rate
  · rw [if_pos hl]
    simp
    linarith
  · rw [if_neg hl]
    simp
    linarith

/-- Witness for C6 (amended) at a connected instrument with concrete draws. -/
theorem ethernet_read_shape_witness :
    (⟨true, 1 / 100, 1 / 20⟩ : EthernetSimulator).connected = true ∧
    ∃ r, (⟨true, 1 / 100, 1 / 20⟩ : EthernetSimulator).read_data ethRng0 1 1 =
        .ok r ∧
      r.data.length = 1 ∧
      ∀ c, c < 1 →
        (r.data.getD c []).length = (pyInt ((1 : ℚ) * 10)).toNat ∧
        ∀ i, i < (pyInt ((1 : ℚ) * 10)).toNat →
          ((r.data.getD c []).getD i (some 0) = none ↔
            ethRng0.loss c i ≤
              (⟨true, 1 / 100, 1 / 20⟩ : EthernetSimulator).packet_loss_rate) :=
  ⟨rfl, ethernet_read_shape.2 ⟨true, 1 / 100, 1 / 20⟩ ethRng0 1 1 rfl⟩

/- ------------------------------------------------------------------ -/
/- Claim C7                                                           -/
/- ------------------------------------------------------------------ -/

theorem linspace_getD (a b : ℝ) (n i : ℕ) (h2 : 2 ≤ n) (hi : i < n) :
    (linspace a b n).getD i 0 = a + i * (b - a) / ((n : ℝ) - 1) := by
  unfold linspace
  rw [if_neg (by omega)]
  exact getD_map_range _ _ hi

/-- Claim C7: the analog source read of duration `d` yields
`int(d * 1000)` samples per channel of the form
`sin(phase(i)) * 5 + noise + drift(i)`, where the phase sweeps exactly one
full period `0..2*pi` over the sample indices and the drift sweeps `0..0.5`,
both parameterized by index only; consequently two durations with equal
sample counts produce identical outputs. -/
theorem analog_source_shape :
    ∀ (rng : DaqRng) (d : ℚ) (ch : ℕ),
      simulate_daq_data rng "analog" d ch =
        .ok ⟨List.range (pyInt (d * 1000)).toNat,
          .analog (simulate_analog_data rng (pyInt (d * 1000)).toNat ch)⟩ ∧
      (∀ d2 : ℚ, pyInt (d * 1000) = pyInt (d2 * 1000) →
        simulate_daq_data rng "analog" d ch =
          simulate_daq_data rng "analog" d2 ch) ∧
      ∀ n : ℕ, 2 ≤ n →
        (simulate_analog_data rng n ch).length = ch ∧
        (∀ c, c < ch → ((simulate_analog_data rng n ch).getD c []).length = n) ∧
        (∀ c i, c < ch → i < n →
          ((simulate_analog_data rng n ch).getD c []).getD i 0 =
            Real.sin (2 * Real.pi * i / ((n : ℝ) - 1)) * 5
              + (rng.analog_noise c i : ℝ) + 1 / 2 * i / ((n : ℝ) - 1)) ∧
        (linspace 0 (2 * Real.pi) n).getD (n - 1) 0 = 2 * Real.pi ∧
        (linspace 0 (1 / 2) n).getD 0 0 = 0 ∧
        (linspace 0 (1 / 2) n).getD (n - 1) 0 = 1 / 2 := by
  intro rng d ch
  have hok : simulate_daq_data rng "analog" d ch =
      .ok ⟨List.range (pyInt (d * 1000)).toNat,
        .analog (simulate_analog_data rng (pyInt (d * 1000)).toNat ch)⟩ := by
    unfold simulate_daq_data
    rw [if_neg (by decide), if_pos rfl]
  refine ⟨hok, ?_, ?_⟩
  · intro d2 hcount
    rw [hok, hcount]
    unfold simulate_daq_data
    rw [if_neg (by decide), if_pos rfl]
  · intro n hn
    have hne : ((n : ℝ) - 1) ≠ 0 := by
      have : (2 : ℝ) ≤ (n : ℝ) := by exact_mod_cast hn
      linarith
    refine ⟨by simp [simulate_analog_data], ?_, ?_, ?_, ?_, ?_⟩
    · intro c hc
      unfold simulate_analog_data
      rw [getD_map_range _ _ hc]
      simp
    · intro c i hc hi
      unfold simulate_analog_data
      rw [getD_map_range _ _ hc, getD_map_range _ _ hi,
        linspace_getD _ _ _ _ hn hi, linspace_getD _ _ _ _ hn hi]
      rw [show (0 : ℝ) + i * (2 * Real.pi - 0) / ((n : ℝ) - 1)
          = 2 * Real.pi * i / ((n : ℝ) - 1) by ring]
      rw [show (0 : ℝ) + i * (1 / 2 - 0) / ((n : ℝ) - 1)
          = 1 / 2 * i / ((n : ℝ) - 1) by ring]
    · rw [linspace_getD _ _ _ _ hn (by omega)]
      rw [show ((n - 1 : ℕ) : ℝ) = (n : ℝ) - 1 by
        rw [Nat.cast_sub (by omega)]; norm_num]
      field_simp
      try ring
    · rw [linspace_getD _ _ _ _ hn (by omega)]
      norm_num
    · rw [linspace_getD _ _ _ _ hn (by omega)]
      rw [show ((n - 1 : ℕ) : ℝ) = (n : ℝ) - 1 by
        rw [Nat.cast_sub (by omega)]; norm_num]
      field_simp
      try ring

/-- Witness for C7 at duration `1/250` (four samples), one channel, index 3. -/
theorem analog_source_shape_witness :
    (2 ≤ 4) ∧ ((0 : ℕ) < 1) ∧ ((3 : ℕ) < 4) ∧
    ((simulate_analog_data rng0 4 1).getD 0 []).getD 3 0 =
      Real.sin (2 * Real.pi * (3 : ℕ) / (((4 : ℕ) : ℝ) - 1)) * 5
        + (rng0.analog_noise 0 3 : ℝ)
        + 1 / 2 * (3 : ℕ) / (((4 : ℕ) : ℝ) - 1) := by
  have h := (analog_source_shape rng0 (1 / 250) 1).2.2 4 (by norm_num)
  exact ⟨by norm_num, by norm_num, by norm_num,
    h.2.2.1 0 3 (by norm_num) (by norm_num)⟩

/- ------------------------------------------------------------------ -/
/- Claim C4                                                           -/
/- ------------------------------------------------------------------ -/

theorem getD_set_ne (l : List ℤ) (n k : ℕ) (v : ℤ) (h : n ≠ k) :
    (l.set n v).getD k 0 = l.getD k 0 := by
  rw [List.getD_eq_getElem?_getD, List.getD_eq_getElem?_getD,
    List.getElem?_set]
  simp [h]

theorem getD_set_self (l : List ℤ) (n : ℕ) (v : ℤ) (h : n < l.length) :
    (l.set n v).getD n 0 = v := by
  rw [List.getD_eq_getElem?_getD, List.getElem?_set]
  simp [h]

theorem bounce_step_length (a : List ℤ) (i : ℕ) :
    (bounce_step a i).length = a.length := by
  unfold bounce_step
  split <;> simp [List.length_set]

theorem debounce_from_length (a : List ℤ) (m : ℕ) :
    (debounce_from a m).length = a.length := by
  induction m with
  | zero => rfl
  | succ m ih => rw [debounce_from, bounce_step_length, ih]

theorem bounce_step_of_eq (a : List ℤ) (i : ℕ)
    (h : a.getD i 0 = a.getD (i - 1) 0) :
    bounce_step a i = a := by
  unfold bounce_step
  rw [if_neg (fun hne => hne h)]

theorem bounce_step_getD_untouched (a : List ℤ) (i k : ℕ)
    (hk : k < i + 1 ∨ i + 4 < k) :
    (bounce_step a i).getD k 0 = a.getD k 0 := by
  unfold bounce_step
  split
  · rw [getD_set_ne _ _ _ _ (by omega), getD_set_ne _ _ _ _ (by omega),
      getD_set_ne _ _ _ _ (by omega), getD_set_ne _ _ _ _ (by omega)]
  · rfl

theorem bounce_step_getD_forced (a : List ℤ) (i k : ℕ)
    (ht : a.getD i 0 ≠ a.getD (i - 1) 0)
    (hk1 : i + 1 ≤ k) (hk4 : k ≤ i + 4) (hklen : k < a.length) :
    (bounce_step a i).getD k 0 = a.getD i 0 := by
  unfold bounce_step
  rw [if_pos ht]
  have hc : k = i + 1 ∨ k = i + 2 ∨ k = i + 3 ∨ k = i + 4 := by omega
  rcases hc with h | h | h | h <;> subst h
  · rw [getD_set_ne _ _ _ _ (by omega), getD_set_ne _ _ _ _ (by omega),
      getD_set_ne _ _ _ _ (by omega)]
    exact getD_set_self _ _ _ hklen
  · rw [getD_set_ne _ _ _ _ (by omega), getD_set_ne _ _ _ _ (by omega)]
    exact getD_set_self _ _ _ (by simpa [List.length_set] using hklen)
  · rw [getD_set_ne _ _ _ _ (by omega)]
    exact getD_set_self _ _ _ (by simpa [List.length_set] using hklen)
  · exact getD_set_self _ _ _ (by simpa [List.length_set] using hklen)

theorem debounce_from_inv (a : List ℤ) (m : ℕ) :
    DebounceInv (debounce_from a m) m := by
  induction m with
  | zero =>
    intro i hi1 him _ _ _ _ _ _
    omega
  | succ m ih =>
    have key : DebounceInv (bounce_step (debounce_from a m) (m + 1)) (m + 1) := by
      set A := debounce_from a m with hA
      intro i hi1 him hiLen htrans j hj1 hj4 hjLen
      have hBlen : (bounce_step A (m + 1)).length = A.length :=
        bounce_step_length A (m + 1)
      by_cases hT : A.getD (m + 1) 0 = A.getD m 0
      · -- no state change at index m+1: the step leaves the list unchanged
        have hid : bounce_step A (m + 1) = A :=
          bounce_step_of_eq A (m + 1) (by simpa using hT)
        rw [hid] at htrans hiLen hjLen ⊢
        rcases Nat.eq_or_lt_of_le him with hieq | hilt
        · exfalso
          subst hieq
          apply htrans
          simpa using hT
        · exact ih i hi1 (by omega) hiLen htrans j hj1 hj4 hjLen
      · -- state change at index m+1: the next four entries are forced
        have hT' : A.getD (m + 1) 0 ≠ A.getD (m + 1 - 1) 0 := by simpa using hT
        rcases Nat.eq_or_lt_of_le him with hieq | hilt
        · subst hieq
          rw [bounce_step_getD_forced A (m + 1) (m + 1 + j) hT'
            (by omega) (by omega) (by rwa [hBlen] at hjLen)]
          rw [bounce_step_getD_untouched A (m + 1) (m + 1) (by omega)]
        · have hilem : i ≤ m := by omega
          have hiA : i < A.length := by rwa [hBlen] at hiLen
          have hjA : i + j < A.length := by rwa [hBlen] at hjLen
          have hu : ∀ k, k ≤ m + 1 →
              (bounce_step A (m + 1)).getD k 0 = A.getD k 0 :=
            fun k hk => bounce_step_getD_untouched A (m + 1) k (by omega)
          have htransA : A.getD i 0 ≠ A.getD (i - 1) 0 := by
            rw [hu i (by omega), hu (i - 1) (by omega)] at htrans
            exact htrans
          by_cases hkz : i + j ≤ m + 1
          · rw [hu (i + j) hkz, hu i (by omega)]
            exact ih i hi1 hilem hiA htransA j hj1 hj4 hjA
          · exfalso
            apply hT
            have h1 : A.getD (i + (m + 1 - i)) 0 = A.getD i 0 :=
              ih i hi1 hilem hiA htransA (m + 1 - i) (by omega) (by omega)
                (by omega)
            rw [show i + (m + 1 - i) = m + 1 by omega] at h1
            rcases Nat.eq_or_lt_of_le hilem with hieq2 | hilt2
            · rw [h1, hieq2]
            · have h2 : A.getD (i + (m - i)) 0 = A.getD i 0 :=
                ih i hi1 hilem hiA htransA (m - i) (by omega) (by omega)
                  (by omega)
              rw [show i + (m - i) = m by omega] at h2
              rw [h1, h2]
    exact key

/-- Claim C4: for every channel stream produced by the digital signal source
(any sample count, any random draws), whenever the final output has a
transition at index `i`, the entries at indices `i+1` through `i+4` (or up to
the end of the stream) all equal the value at `i`; the debounce is the single
left-to-right pass `debounce`. -/
theorem digital_debounce_window_holds :
    ∀ (rng : DaqRng) (num_samples num_channels : ℕ),
      ∀ out ∈ simulate_digital_data rng num_samples num_channels,
        ∀ i, 1 ≤ i → i < out.length →
          out.getD i 0 ≠ out.getD (i - 1) 0 →
          ∀ j, 1 ≤ j → j ≤ 4 → i + j < out.length →
            out.getD (i + j) 0 = out.getD i 0 := by
  intro rng n ch out hmem i hi1 hiLen htrans j hj1 hj4 hjLen
  simp only [simulate_digital_data, List.mem_map] at hmem
  obtain ⟨c, _, rfl⟩ := hmem
  set l := (List.range n).map (rng.digital_bit c) with hl
  have hlen : (debounce l).length = l.length :=
    debounce_from_length l (l.length - 1)
  exact debounce_from_inv l (l.length - 1) i hi1
    (by rw [hlen] at hiLen; omega) hiLen htrans j hj1 hj4 hjLen

/-- Witness for C4 at six samples of one channel with draws `0,1,1,1,1,1`:
the debounced stream has a transition at index 1 and indices 2 through 5
carry the new state. -/
theorem digital_debounce_window_witness :
    ∃ out ∈ simulate_digital_data rng0 6 1,
      1 ≤ (1 : ℕ) ∧ 1 < out.length ∧ out.getD 1 0 ≠ out.getD (1 - 1) 0 ∧
      1 ≤ (4 : ℕ) ∧ (4 : ℕ) ≤ 4 ∧ 1 + 4 < out.length ∧
      out.getD (1 + 4) 0 = out.getD 1 0 := by
  refine ⟨(simulate_digital_data rng0 6 1).getD 0 [], by decide, by decide,
    by decide, by decide, by decide, by decide, by decide, ?_⟩
  exact digital_debounce_window_holds rng0 6 1 _ (by decide) 1 (by decide)
    (by decide) (by decide) 4 (by decide) (by decide) (by decide)
